import Mathlib

/-!
Verification of the HTTP image-cache server in `src/main.js`.

The server stores one binary blob per 3-digit code, as a file
`<cache_dir>/<code>.jpeg`. GET streams the file, PUT buffers the body and
replaces the file, DELETE unlinks it. We embed the request-handling logic
shallowly: the filesystem becomes an explicit map from paths to byte lists,
request bodies become `Except` values (a stream-read failure carries the
error message), and injected `Option String` parameters stand for the
fallibility of `fs.writeFile` / `fs.unlink` (`none` = the call succeeds,
`some msg` = the call throws a non-ENOENT error with message `msg`).
-/

namespace CacheServer

/-- A response body: either plain text (the handlers' messages) or raw bytes
(a streamed image). Bytes are modelled as `List Nat`. -/
inductive Body where
  | text : String → Body
  | bytes : List Nat → Body
deriving DecidableEq, Repr

/-- The observable parts of an HTTP response as the handlers in `main.js`
build it with `res.writeHead` / `res.end`: the status code, the
`Content-Type` header, the `X-Cache` header, and the body. -/
structure Response where
  status : Nat
  contentType : Option String
  xCache : Option String
  body : Body
deriving DecidableEq, Repr

/-- The filesystem state: a map from file paths to file contents (bytes).
`none` means the file does not exist. -/
def FS : Type := String → Option (List Nat)

/-- The empty cache directory: no files. -/
def FS.empty : FS := fun _ => none

/-- `fs.writeFile p bs`: the file at `p` now holds exactly `bs` (create or
replace); no other file changes. -/
def FS.writeFile (f : FS) (p : String) (bs : List Nat) : FS :=
  fun q => if q = p then some bs else f q

/-- `fs.unlink p`: the file at `p` is removed; no other file changes. -/
def FS.unlink (f : FS) (p : String) : FS :=
  fun q => if q = p then none else f q

/-- `main.js` lines 16-19: `url.match(/^\/(\d{3})$/)`. The regex (anchored at
both ends, no `m` flag, `\d` = ASCII digit) matches exactly the strings made
of `/` followed by three ASCII digits; on a match the captured group (the
three digits) is returned, otherwise `null`. -/
def getHttpCodeFromUrl (url : String) : Option String :=
  match url.data with
  | [s, a, b, c] =>
    if s = '/' && a.isDigit && b.isDigit && c.isDigit then
      some (String.mk [a, b, c])
    else none
  | _ => none

/-- `main.js` lines 21-23: `path.join(options.cache, code + ".jpeg")`. For a
cache directory given without a trailing separator the join is separator
concatenation, and the appended name `<code>.jpeg` contains nothing
`path.join` would normalise. -/
def getCacheFilePath (cache : String) (code : String) : String :=
  cache ++ "/" ++ (code ++ ".jpeg")

/-- `main.js` lines 35-66, `handleGet`. `fs.createReadStream` never throws
synchronously for a string path: it returns a stream and opens the file
asynchronously, so the `catch` block (the 404 ENOENT branch and the 500
branch) is unreachable. The handler then runs `res.writeHead(200,
image/jpeg, X-Cache: HIT)` unconditionally, which marks the headers as sent.
If the file exists, its bytes are piped to the client. If it does not, the
stream emits an `'error'` event only after `writeHead` has run, so
`res.headersSent` is true and the handler calls `res.end()`: the client
receives the 200 head with an empty body. GET never touches the filesystem
state. -/
def handleGet (cache : String) (fsys : FS) (code : String) : FS × Response :=
  let filePath := getCacheFilePath cache code
  match fsys filePath with
  | some bs => (fsys, ⟨200, some "image/jpeg", some "HIT", Body.bytes bs⟩)
  | none => (fsys, ⟨200, some "image/jpeg", some "HIT", Body.bytes []⟩)

/-- `main.js` lines 68-101, `handlePut`. The body stream is fully buffered
(`for await` over `req`, then `Buffer.concat`); `bodyRead` is the outcome:
`Except.ok bs` when the whole body was read as bytes `bs`, `Except.error msg`
when reading the stream threw. A read failure answers 500 and returns before
any storage access. An empty buffered body answers 400 and returns before
any storage access. Otherwise `fs.writeFile` replaces the file; `writeErr`
injects its outcome (`none` = success → 201, `some msg` = throw → 500 with
the filesystem unchanged). -/
def handlePut (cache : String) (fsys : FS) (code : String)
    (bodyRead : Except String (List Nat)) (writeErr : Option String) :
    FS × Response :=
  let filePath := getCacheFilePath cache code
  match bodyRead with
  | Except.error _ =>
    (fsys, ⟨500, some "text/plain", none, Body.text "Internal Server Error."⟩)
  | Except.ok imageBuffer =>
    if imageBuffer.length = 0 then
      (fsys, ⟨400, some "text/plain", none,
        Body.text "Bad Request: Image body is empty."⟩)
    else
      match writeErr with
      | none =>
        (FS.writeFile fsys filePath imageBuffer,
          ⟨201, some "text/plain", none,
            Body.text ("Created: Image for code " ++ code ++
              " saved/replaced in cache.")⟩)
      | some _ =>
        (fsys, ⟨500, some "text/plain", none,
          Body.text "Internal Server Error while saving file."⟩)

/-- `main.js` lines 103-123, `handleDelete`. `fs.unlink` succeeds exactly
when the file exists (→ 200, file removed), throws ENOENT when it does not
(→ 404), and `unlinkErr` injects any other error (`some msg` → 500, the
filesystem unchanged). -/
def handleDelete (cache : String) (fsys : FS) (code : String)
    (unlinkErr : Option String) : FS × Response :=
  let filePath := getCacheFilePath cache code
  match unlinkErr with
  | some _ =>
    (fsys, ⟨500, some "text/plain", none,
      Body.text "Internal Server Error while deleting file."⟩)
  | none =>
    match fsys filePath with
    | some _ =>
      (FS.unlink fsys filePath,
        ⟨200, some "text/plain", none,
          Body.text ("OK: Image for code " ++ code ++
            " deleted from cache.")⟩)
    | none =>
      (fsys, ⟨404, some "text/plain", none,
        Body.text "Not Found: Image not in cache."⟩)

/-- `main.js` lines 128-153, the request listener in `startServer`: derive
the code from the URL (404 on a non-matching path, whatever the method),
then dispatch on the method string, answering 405 for anything other than
GET, PUT and DELETE. -/
def serverHandle (cache : String) (fsys : FS) (method url : String)
    (bodyRead : Except String (List Nat))
    (writeErr unlinkErr : Option String) : FS × Response :=
  match getHttpCodeFromUrl url with
  | none =>
    (fsys, ⟨404, some "text/plain", none,
      Body.text "Invalid URL format. Use /XXX where XXX is a 3-digit HTTP code."⟩)
  | some httpCode =>
    if method = "GET" then handleGet cache fsys httpCode
    else if method = "PUT" then handlePut cache fsys httpCode bodyRead writeErr
    else if method = "DELETE" then handleDelete cache fsys httpCode unlinkErr
    else
      (fsys, ⟨405, some "text/plain", none, Body.text "Method Not Allowed"⟩)

/-- The path shape the spec describes: exactly `/` followed by three ASCII
digits. Stated over the raw character list of the URL. -/
def validCodeUrl (url : String) : Prop :=
  ∃ a b c : Char, url.data = ['/', a, b, c] ∧
    a.isDigit = true ∧ b.isDigit = true ∧ c.isDigit = true

/-! ### Helper lemmas -/

theorem string_ext (a b : String) (h : a.data = b.data) : a = b := by
  cases a; cases b; exact congrArg String.mk h

/-- The router's match, characterised: it returns `some code` exactly when
the URL has the `/DDD` shape, and then `code` is the three digits. -/
theorem getHttpCodeFromUrl_some_iff (url code : String) :
    getHttpCodeFromUrl url = some code ↔
      ∃ a b c : Char, url.data = ['/', a, b, c] ∧ a.isDigit = true ∧
        b.isDigit = true ∧ c.isDigit = true ∧ code = String.mk [a, b, c] := by
  unfold getHttpCodeFromUrl
  constructor
  · intro h
    split at h
    · rename_i s a b c heq
      by_cases hcond : s = '/' ∧ a.isDigit = true ∧ b.isDigit = true ∧ c.isDigit = true
      · obtain ⟨hs, ha, hb, hc⟩ := hcond
        refine ⟨a, b, c, by rw [heq, hs], ha, hb, hc, ?_⟩
        rw [if_pos (by simp [hs, ha, hb, hc])] at h
        exact (Option.some.inj h).symm
      · rw [if_neg (by simpa [and_assoc] using fun hs ha hb hc => hcond ⟨hs, ha, hb, hc⟩)] at h
        exact absurd h (by simp)
    · exact absurd h (by simp)
  · rintro ⟨a, b, c, heq, ha, hb, hc, hcode⟩
    rw [heq]
    simp [ha, hb, hc, hcode]

/-- The router's rejection, characterised: `none` exactly on the URLs that do
not have the `/DDD` shape of `validCodeUrl`. -/
theorem getHttpCodeFromUrl_none_iff (url : String) :
    getHttpCodeFromUrl url = none ↔ ¬ validCodeUrl url := by
  constructor
  · intro h hv
    obtain ⟨a, b, c, heq, ha, hb, hc⟩ := hv
    have : getHttpCodeFromUrl url = some (String.mk [a, b, c]) := by
      rw [getHttpCodeFromUrl_some_iff]
      exact ⟨a, b, c, heq, ha, hb, hc, rfl⟩
    rw [h] at this
    exact absurd this (by simp)
  · intro h
    cases hr : getHttpCodeFromUrl url with
    | none => rfl
    | some code =>
      obtain ⟨a, b, c, heq, ha, hb, hc, _⟩ := (getHttpCodeFromUrl_some_iff url code).mp hr
      exact absurd ⟨a, b, c, heq, ha, hb, hc⟩ h

/-- Any code the router accepts is made of three ASCII digits. -/
theorem getHttpCodeFromUrl_digits (url code : String)
    (h : getHttpCodeFromUrl url = some code) :
    code.data.length = 3 ∧ ∀ ch ∈ code.data, ch.isDigit = true := by
  obtain ⟨a, b, c, _, ha, hb, hc, hcode⟩ := (getHttpCodeFromUrl_some_iff url code).mp h
  subst hcode
  refine ⟨rfl, ?_⟩
  intro ch hch
  simp only [String.mk, List.mem_cons, List.not_mem_nil, or_false] at hch
  rcases hch with rfl | rfl | rfl
  · exact ha
  · exact hb
  · exact hc

/-- An ASCII digit is not a path separator. -/
theorem isDigit_ne_slash (c : Char) (h : c.isDigit = true) : c ≠ '/' := by
  rintro rfl
  simp [Char.isDigit] at h

/-- For a fixed cache directory, distinct codes give distinct file paths. -/
theorem getCacheFilePath_inj (cache c1 c2 : String)
    (h : getCacheFilePath cache c1 = getCacheFilePath cache c2) : c1 = c2 := by
  unfold getCacheFilePath at h
  have hd := congrArg String.data h
  simp only [String.data_append] at hd
  exact string_ext c1 c2
    (List.append_cancel_right (List.append_cancel_left hd))

/-- On a path the router accepts, `serverHandle` is the method dispatch of
`startServer`'s switch statement. -/
theorem serverHandle_dispatch (cache : String) (fsys : FS)
    (method url code : String) (bodyRead : Except String (List Nat))
    (writeErr unlinkErr : Option String)
    (hurl : getHttpCodeFromUrl url = some code) :
    serverHandle cache fsys method url bodyRead writeErr unlinkErr =
      (if method = "GET" then handleGet cache fsys code
       else if method = "PUT" then handlePut cache fsys code bodyRead writeErr
       else if method = "DELETE" then handleDelete cache fsys code unlinkErr
       else (fsys, ⟨405, some "text/plain", none,
         Body.text "Method Not Allowed"⟩)) := by
  unfold serverHandle
  rw [hurl]

/-! ### Claims -/

/-- C1: the claim says a GET for a cached-but-absent code answers 404 with a
not-found text body, and that GET after a successful DELETE answers 404. In
the code the 404 branch of `handleGet` is dead: `fs.createReadStream` only
reports ENOENT through an asynchronous `'error'` event, which fires after
`res.writeHead(200, ...)` has already marked the headers as sent, so the
handler falls into the `res.end()` branch. A GET for a missing entry — on an
empty cache, and right after PUT then DELETE — actually answers 200 with
`image/jpeg`, `X-Cache: HIT` and an empty body, not 404. -/
theorem c1_get_missing_entry_code_bug :
    (handleGet "c" FS.empty "404").2 =
      ⟨200, some "image/jpeg", some "HIT", Body.bytes []⟩ ∧
    (handleGet "c"
      ((handleDelete "c"
        ((handlePut "c" FS.empty "404" (Except.ok [104, 105]) none).1)
        "404" none).1) "404").2 =
      ⟨200, some "image/jpeg", some "HIT", Body.bytes []⟩ := by
  constructor
  · rfl
  · rfl

/-- C3: a request whose path is not `/` followed by exactly three ASCII
digits is answered 404 with the invalid-URL plain-text message, whatever the
method and whatever the filesystem holds, and the filesystem is untouched. -/
theorem c3_invalid_path_rejected (cache : String) (fsys : FS)
    (method url : String) (bodyRead : Except String (List Nat))
    (writeErr unlinkErr : Option String) (h : ¬ validCodeUrl url) :
    serverHandle cache fsys method url bodyRead writeErr unlinkErr =
      (fsys, ⟨404, some "text/plain", none,
        Body.text "Invalid URL format. Use /XXX where XXX is a 3-digit HTTP code."⟩) := by
  have hn : getHttpCodeFromUrl url = none := (getHttpCodeFromUrl_none_iff url).mpr h
  unfold serverHandle
  rw [hn]

/-- C3 witness: the PATCH method on `/12a4` (non-digit character, wrong
length) is rejected with the 404 invalid-URL response. -/
theorem c3_invalid_path_rejected_witness :
    (¬ validCodeUrl "/12a4") ∧
    serverHandle "c" FS.empty "PATCH" "/12a4" (Except.ok [1]) none none =
      (FS.empty, ⟨404, some "text/plain", none,
        Body.text "Invalid URL format. Use /XXX where XXX is a 3-digit HTTP code."⟩) := by
  have h : ¬ validCodeUrl "/12a4" := by
    rintro ⟨a, b, c, heq, -⟩
    rw [show "/12a4".data = ['/', '1', '2', 'a', '4'] from rfl] at heq
    simp at heq
  exact ⟨h, c3_invalid_path_rejected "c" FS.empty "PATCH" "/12a4"
    (Except.ok [1]) none none h⟩

/-- C4: a PUT whose fully read body is empty answers 400 with the exact
bad-request message and returns the filesystem unchanged (the handler
returns before `fs.writeFile` is reached). -/
theorem c4_put_empty_body_rejected (cache : String) (fsys : FS)
    (url code : String) (writeErr unlinkErr : Option String)
    (hurl : getHttpCodeFromUrl url = some code) :
    serverHandle cache fsys "PUT" url (Except.ok []) writeErr unlinkErr =
      (fsys, ⟨400, some "text/plain", none,
        Body.text "Bad Request: Image body is empty."⟩) := by
  rw [serverHandle_dispatch cache fsys "PUT" url code (Except.ok [])
    writeErr unlinkErr hurl]
  rfl

/-- C4 witness: an empty-body PUT on `/200` over the empty cache. -/
theorem c4_put_empty_body_rejected_witness :
    getHttpCodeFromUrl "/200" = some "200" ∧
    serverHandle "c" FS.empty "PUT" "/200" (Except.ok []) none none =
      (FS.empty, ⟨400, some "text/plain", none,
        Body.text "Bad Request: Image body is empty."⟩) :=
  ⟨by decide,
    c4_put_empty_body_rejected "c" FS.empty "/200" "200" none none (by decide)⟩

/-- C6: on a valid `/DDD` path, any method other than GET, PUT and DELETE
falls through the dispatch to the 405 Method Not Allowed response, with the
filesystem unchanged. -/
theorem c6_unsupported_method_405 (cache : String) (fsys : FS)
    (method url code : String) (bodyRead : Except String (List Nat))
    (writeErr unlinkErr : Option String)
    (hurl : getHttpCodeFromUrl url = some code)
    (hget : method ≠ "GET") (hput : method ≠ "PUT")
    (hdel : method ≠ "DELETE") :
    serverHandle cache fsys method url bodyRead writeErr unlinkErr =
      (fsys, ⟨405, some "text/plain", none, Body.text "Method Not Allowed"⟩) := by
  rw [serverHandle_dispatch cache fsys method url code bodyRead
    writeErr unlinkErr hurl]
  rw [if_neg hget, if_neg hput, if_neg hdel]

/-- C6 witness: PATCH on `/200`. -/
theorem c6_unsupported_method_405_witness :
    getHttpCodeFromUrl "/200" = some "200" ∧
    serverHandle "c" FS.empty "PATCH" "/200" (Except.ok [1]) none none =
      (FS.empty, ⟨405, some "text/plain", none, Body.text "Method Not Allowed"⟩) :=
  ⟨by decide,
    c6_unsupported_method_405 "c" FS.empty "PATCH" "/200" "200"
      (Except.ok [1]) none none (by decide) (by decide) (by decide)
      (by decide)⟩

/-- C7: when reading the PUT body stream fails, the handler answers 500 with
the fixed message and returns before any storage access: the filesystem
comes back unchanged, whatever had been received so far. -/
theorem c7_put_read_failure_nothing_persisted (cache : String) (fsys : FS)
    (url code msg : String) (writeErr unlinkErr : Option String)
    (hurl : getHttpCodeFromUrl url = some code) :
    serverHandle cache fsys "PUT" url (Except.error msg) writeErr unlinkErr =
      (fsys, ⟨500, some "text/plain", none,
        Body.text "Internal Server Error."⟩) := by
  rw [serverHandle_dispatch cache fsys "PUT" url code (Except.error msg)
    writeErr unlinkErr hurl]
  rfl

/-- C7 witness: a failed body read on `/200` over the empty cache. -/
theorem c7_put_read_failure_nothing_persisted_witness :
    getHttpCodeFromUrl "/200" = some "200" ∧
    serverHandle "c" FS.empty "PUT" "/200" (Except.error "socket hang up")
        none none =
      (FS.empty, ⟨500, some "text/plain", none,
        Body.text "Internal Server Error."⟩) :=
  ⟨by decide,
    c7_put_read_failure_nothing_persisted "c" FS.empty "/200" "200"
      "socket hang up" none none (by decide)⟩

/-- C8: the 500 responses never leak the internal error. Two PUTs whose body
reads fail with different error messages get identical responses; two PUTs
whose `fs.writeFile` fails with different errors get identical responses;
two DELETEs whose `fs.unlink` fails with different non-ENOENT errors get
identical responses; and `handleGet` never emits a 500 status at all (its
500 branches are unreachable, see `handleGet`). -/
theorem c8_500_bodies_error_independent (cache : String) (fsys : FS)
    (code m1 m2 : String) (bs : List Nat) (we1 we2 : Option String) :
    handlePut cache fsys code (Except.error m1) we1 =
      handlePut cache fsys code (Except.error m2) we2 ∧
    handlePut cache fsys code (Except.ok bs) (some m1) =
      handlePut cache fsys code (Except.ok bs) (some m2) ∧
    handleDelete cache fsys code (some m1) =
      handleDelete cache fsys code (some m2) ∧
    (handleGet cache fsys code).2.status ≠ 500 := by
  refine ⟨rfl, ?_, rfl, ?_⟩
  · unfold handlePut
    by_cases h : bs.length = 0 <;> simp [h]
  · simp only [handleGet]
    cases fsys (getCacheFilePath cache code) <;> simp

/-- C5: DELETE on a valid path answers 200 with the confirmation text and
removes the entry exactly when an entry was present; with no entry (in
particular with no prior PUT) it answers 404 with the not-in-cache text and
leaves everything unchanged. Stated for a run where `fs.unlink` throws no
error other than ENOENT. -/
theorem c5_delete_iff_present (cache : String) (fsys : FS) (url code : String)
    (bodyRead : Except String (List Nat)) (writeErr : Option String)
    (hurl : getHttpCodeFromUrl url = some code) :
    (fsys (getCacheFilePath cache code) ≠ none →
      (serverHandle cache fsys "DELETE" url bodyRead writeErr none).2 =
        ⟨200, some "text/plain", none,
          Body.text ("OK: Image for code " ++ code ++ " deleted from cache.")⟩ ∧
      (serverHandle cache fsys "DELETE" url bodyRead writeErr none).1
        (getCacheFilePath cache code) = none) ∧
    (fsys (getCacheFilePath cache code) = none →
      serverHandle cache fsys "DELETE" url bodyRead writeErr none =
        (fsys, ⟨404, some "text/plain", none,
          Body.text "Not Found: Image not in cache."⟩)) := by
  rw [serverHandle_dispatch cache fsys "DELETE" url code bodyRead
    writeErr none hurl]
  norm_num
  constructor
  · intro hpres
    obtain ⟨bs, hbs⟩ := Option.ne_none_iff_exists'.mp hpres
    simp only [handleDelete, hbs]
    exact ⟨rfl, by simp [FS.unlink]⟩
  · intro habs
    simp only [handleDelete, habs]
    rfl

/-- C5 witness: DELETE `/200` on a cache holding an entry for 200 answers
200; DELETE `/200` on the empty cache answers 404. -/
theorem c5_delete_iff_present_witness :
    getHttpCodeFromUrl "/200" = some "200" ∧
    (serverHandle "c" (FS.writeFile FS.empty (getCacheFilePath "c" "200") [7])
        "DELETE" "/200" (Except.ok []) none none).2 =
      ⟨200, some "text/plain", none,
        Body.text ("OK: Image for code " ++ "200" ++ " deleted from cache.")⟩ ∧
    serverHandle "c" FS.empty "DELETE" "/200" (Except.ok []) none none =
      (FS.empty, ⟨404, some "text/plain", none,
        Body.text "Not Found: Image not in cache."⟩) := by
  refine ⟨by decide, ?_, ?_⟩
  · exact ((c5_delete_iff_present "c"
      (FS.writeFile FS.empty (getCacheFilePath "c" "200") [7]) "/200" "200"
      (Except.ok []) none (by decide)).1 (by simp [FS.writeFile])).1
  · exact (c5_delete_iff_present "c" FS.empty "/200" "200"
      (Except.ok []) none (by decide)).2 rfl

/-- After a run of successful non-empty PUTs for `code`, the cache file for
`code` holds exactly the bytes of the last PUT. -/
theorem foldl_put_lookup (cache code : String) :
    ∀ (bodies : List (List Nat)) (fsys : FS) (last : List Nat),
      bodies.getLast? = some last → (∀ b ∈ bodies, b ≠ []) →
      (bodies.foldl
        (fun f b => (handlePut cache f code (Except.ok b) none).1) fsys)
        (getCacheFilePath cache code) = some last := by
  intro bodies
  induction bodies with
  | nil => intro fsys last h _; simp at h
  | cons b rest ih =>
    intro fsys last hlast hall
    rw [List.foldl_cons]
    have hb : b ≠ [] := hall b (List.mem_cons_self b rest)
    have hstep : (handlePut cache fsys code (Except.ok b) none).1 =
        FS.writeFile fsys (getCacheFilePath cache code) b := by
      simp only [handlePut]
      rw [if_neg (by simpa [List.length_eq_zero] using hb)]
    cases rest with
    | nil =>
      simp only [List.foldl_nil]
      rw [hstep]
      have hlb : last = b := by simpa using hlast.symm
      subst hlb
      simp [FS.writeFile]
    | cons b2 rest2 =>
      have hlast2 : (b2 :: rest2).getLast? = some last := by
        rwa [List.getLast?_cons_cons] at hlast
      rw [hstep]
      exact ih (FS.writeFile fsys (getCacheFilePath cache code) b) last hlast2
        (fun x hx => hall x (List.mem_cons_of_mem b hx))

/-- C2: after any run of successful PUTs with non-empty bodies on a valid
path, GET on that path answers 200 with `Content-Type: image/jpeg`,
`X-Cache: HIT`, and a body byte-for-byte equal to the last PUT body: each
write replaces the previous entry, never appends to it. -/
theorem c2_put_seq_get_roundtrip (cache : String) (fsys : FS)
    (url code : String) (bodies : List (List Nat)) (last : List Nat)
    (bodyRead : Except String (List Nat)) (writeErr unlinkErr : Option String)
    (hurl : getHttpCodeFromUrl url = some code)
    (hlast : bodies.getLast? = some last)
    (hall : ∀ b ∈ bodies, b ≠ []) :
    (serverHandle cache
      (bodies.foldl (fun f b =>
        (serverHandle cache f "PUT" url (Except.ok b) none unlinkErr).1) fsys)
      "GET" url bodyRead writeErr unlinkErr).2 =
      ⟨200, some "image/jpeg", some "HIT", Body.bytes last⟩ := by
  have hput : (fun (f : FS) (b : List Nat) =>
      (serverHandle cache f "PUT" url (Except.ok b) none unlinkErr).1) =
      (fun (f : FS) (b : List Nat) =>
        (handlePut cache f code (Except.ok b) none).1) := by
    funext f b
    rw [serverHandle_dispatch cache f "PUT" url code (Except.ok b)
      none unlinkErr hurl]
    rfl
  rw [hput]
  rw [serverHandle_dispatch cache _ "GET" url code bodyRead
    writeErr unlinkErr hurl]
  rw [if_pos rfl]
  simp only [handleGet]
  rw [foldl_put_lookup cache code bodies fsys last hlast hall]

/-- C2 witness: PUT `[1]` then PUT `[2, 3]` on `/200`, then GET `/200`. -/
theorem c2_put_seq_get_roundtrip_witness :
    getHttpCodeFromUrl "/200" = some "200" ∧
    ([[1], [2, 3]] : List (List Nat)).getLast? = some [2, 3] ∧
    (serverHandle "c"
      (([[1], [2, 3]] : List (List Nat)).foldl (fun f b =>
        (serverHandle "c" f "PUT" "/200" (Except.ok b) none none).1) FS.empty)
      "GET" "/200" (Except.ok []) none none).2 =
      ⟨200, some "image/jpeg", some "HIT", Body.bytes [2, 3]⟩ := by
  refine ⟨by decide, by decide, ?_⟩
  exact c2_put_seq_get_roundtrip "c" FS.empty "/200" "200" [[1], [2, 3]]
    [2, 3] (Except.ok []) none none (by decide) (by decide) (by decide)

/-- C9: for any code the router accepts, the cache file path is exactly the
cache directory joined with `<code>.jpeg`; for a fixed cache directory the
mapping is injective; and the appended file name is non-empty and contains
no path separator, so no accepted URL can produce a path escaping the cache
directory. -/
theorem c9_path_derivation_safe (cache url code : String)
    (hurl : getHttpCodeFromUrl url = some code) :
    getCacheFilePath cache code = cache ++ "/" ++ (code ++ ".jpeg") ∧
    (∀ c2 : String, getCacheFilePath cache code = getCacheFilePath cache c2 →
      code = c2) ∧
    (code ++ ".jpeg").data ≠ [] ∧
    '/' ∉ (code ++ ".jpeg").data := by
  refine ⟨rfl, fun c2 h => getCacheFilePath_inj cache code c2 h, ?_, ?_⟩
  · rw [String.data_append]
    intro h
    obtain ⟨-, h2⟩ := List.append_eq_nil.mp h
    exact absurd h2 (by decide)
  · obtain ⟨-, hdig⟩ := getHttpCodeFromUrl_digits url code hurl
    intro hmem
    rw [String.data_append] at hmem
    rcases List.mem_append.mp hmem with h1 | h1
    · exact isDigit_ne_slash '/' (hdig '/' h1) rfl
    · exact absurd h1 (by decide)

/-- C9 witness: the accepted URL `/200` maps to `c/200.jpeg` under cache
directory `c`, with a separator-free file name. -/
theorem c9_path_derivation_safe_witness :
    getHttpCodeFromUrl "/200" = some "200" ∧
    getCacheFilePath "c" "200" = "c" ++ "/" ++ ("200" ++ ".jpeg") ∧
    '/' ∉ ("200" ++ ".jpeg").data := by
  refine ⟨by decide, ?_, ?_⟩
  · exact (c9_path_derivation_safe "c" "/200" "200" (by decide)).1
  · exact (c9_path_derivation_safe "c" "/200" "200" (by decide)).2.2.2

/-- C10: handling a request for `code` never touches another code's entry.
GET passes the filesystem through unchanged whatever it finds; PUT and
DELETE, under every body-read and storage outcome, leave every path other
than `code`'s own cache file path unchanged; by injectivity of the path
mapping, the entry of every other code `c2 ≠ code` is preserved. -/
theorem c10_frame_other_codes_untouched (cache : String) (fsys : FS)
    (code : String) (bodyRead : Except String (List Nat))
    (writeErr unlinkErr : Option String) :
    (handleGet cache fsys code).1 = fsys ∧
    (∀ p : String, p ≠ getCacheFilePath cache code →
      (handlePut cache fsys code bodyRead writeErr).1 p = fsys p) ∧
    (∀ p : String, p ≠ getCacheFilePath cache code →
      (handleDelete cache fsys code unlinkErr).1 p = fsys p) ∧
    (∀ c2 : String, c2 ≠ code →
      (handlePut cache fsys code bodyRead writeErr).1
        (getCacheFilePath cache c2) = fsys (getCacheFilePath cache c2) ∧
      (handleDelete cache fsys code unlinkErr).1
        (getCacheFilePath cache c2) = fsys (getCacheFilePath cache c2)) := by
  have hget : (handleGet cache fsys code).1 = fsys := by
    simp only [handleGet]
    cases fsys (getCacheFilePath cache code) <;> rfl
  have hput : ∀ p : String, p ≠ getCacheFilePath cache code →
      (handlePut cache fsys code bodyRead writeErr).1 p = fsys p := by
    intro p hp
    simp only [handlePut]
    cases bodyRead with
    | error m => rfl
    | ok bs =>
      by_cases hlen : bs.length = 0
      · simp [hlen]
      · cases writeErr with
        | some m => simp [hlen]
        | none => simp [hlen, FS.writeFile, hp]
  have hdel : ∀ p : String, p ≠ getCacheFilePath cache code →
      (handleDelete cache fsys code unlinkErr).1 p = fsys p := by
    intro p hp
    simp only [handleDelete]
    cases unlinkErr with
    | some m => rfl
    | none =>
      cases fsys (getCacheFilePath cache code) with
      | some bs => simp [FS.unlink, hp]
      | none => rfl
  refine ⟨hget, hput, hdel, fun c2 hc2 => ?_⟩
  have hne : getCacheFilePath cache c2 ≠ getCacheFilePath cache code :=
    fun h => hc2 (getCacheFilePath_inj cache c2 code h)
  exact ⟨hput (getCacheFilePath cache c2) hne,
    hdel (getCacheFilePath cache c2) hne⟩

/-- C10 witness: with an entry stored for code 201, a GET for 200 passes the
filesystem through and a DELETE for 200 leaves 201's entry in place. -/
theorem c10_frame_other_codes_untouched_witness :
    (handleGet "c" (FS.writeFile FS.empty (getCacheFilePath "c" "201") [7])
      "200").1 = FS.writeFile FS.empty (getCacheFilePath "c" "201") [7] ∧
    (handleDelete "c" (FS.writeFile FS.empty (getCacheFilePath "c" "201") [7])
      "200" none).1 (getCacheFilePath "c" "201") =
      (FS.writeFile FS.empty (getCacheFilePath "c" "201") [7])
        (getCacheFilePath "c" "201") := by
  refine ⟨(c10_frame_other_codes_untouched "c"
    (FS.writeFile FS.empty (getCacheFilePath "c" "201") [7]) "200"
    (Except.ok [1]) none none).1, ?_⟩
  exact ((c10_frame_other_codes_untouched "c"
    (FS.writeFile FS.empty (getCacheFilePath "c" "201") [7]) "200"
    (Except.ok [1]) none none).2.2.2 "201" (by decide)).2

end CacheServer
